import Mathlib

/-!
Verification of the reminder scheduling & lifecycle engine of the
`slonyara2.0` telegram meeting bot, as a shallow embedding in Lean 4.

Embedding conventions:
* Python `datetime` values are modelled by the `DT` structure (year, month,
  day, hour, minute, second); microseconds are ignored (no claim depends on
  sub-second precision).  Timezones are modelled as fixed UTC offsets, so
  comparison of two aware datetimes in the same zone coincides with
  wall-clock comparison, and `datetime - timedelta` acts on the instant the
  same way it acts on the wall clock.
* ISO timestamp strings stored in job records (`run_at_utc`,
  `created_at_utc`) are modelled as epoch seconds (`Int`); a missing or
  unparseable string is `none`.
* The regular expression `MEETING_REGEX` from `core/constants.py` is
  embedded character by character as the total function `meetingRegexMatch`
  (Python `\s` ≈ `Char.isWhitespace`, `\d` modelled as ASCII digits).
* JSON job-record dictionaries are modelled by the `Rec` structure whose
  fields are `Option`-valued exactly because Python `dict.get` may yield
  `None`; purely UI-level fields (`confirm_chat_id`, `confirm_message_id`)
  are omitted, as are the audit/log sinks and the Telegram reply messages —
  only the reminder sends to the chat transport are traced.
* Effects are made explicit: each lifecycle operation is a pure function
  from a `SysState` (job store, scheduler timers, dedup deque, trace of
  sends) to a new `SysState` plus an outcome.
-/

namespace Slonyara

/-! ## Calendar model (Python `datetime` restricted to minute fields + seconds) -/

/-- A naive wall-clock datetime, as constructed by
`datetime(year, month, day, hour, minute)` (plus the seconds that
`datetime.now` carries). -/
structure DT where
  year : Nat
  month : Nat
  day : Nat
  hour : Nat
  minute : Nat
  second : Nat
deriving DecidableEq, Repr

/-- Gregorian leap-year rule used by Python's `datetime`. -/
def isLeap (y : Nat) : Bool :=
  y % 4 == 0 && (y % 100 != 0 || y % 400 == 0)

/-- Days in a month, as validated by the `datetime` constructor. -/
def daysInMonth (y : Nat) (m : Nat) : Nat :=
  match m with
  | 1 => 31 | 2 => if isLeap y then 29 else 28 | 3 => 31 | 4 => 30
  | 5 => 31 | 6 => 30 | 7 => 31 | 8 => 31
  | 9 => 30 | 10 => 31 | 11 => 30 | 12 => 31
  | _ => 0

/-- `datetime(y, m, d, hh, mm)` succeeds exactly on these values
(`MINYEAR = 1`, `MAXYEAR = 9999`). -/
def validDT (t : DT) : Prop :=
  1 ≤ t.year ∧ t.year ≤ 9999 ∧ 1 ≤ t.month ∧ t.month ≤ 12 ∧
  1 ≤ t.day ∧ t.day ≤ daysInMonth t.year t.month ∧
  t.hour ≤ 23 ∧ t.minute ≤ 59 ∧ t.second ≤ 59

instance (t : DT) : Decidable (validDT t) := by
  unfold validDT; infer_instance

/-- Number of leap years in `[1..y]`. -/
def leapsBefore (y : Nat) : Nat := y / 4 + y / 400 - y / 100

/-- Days before month `m` within a year (0 for January), `leap` selecting
the February length. -/
def daysBeforeMonth (leap : Bool) (m : Nat) : Nat :=
  (match m with
   | 1 => 0 | 2 => 31 | 3 => 59 | 4 => 90 | 5 => 120 | 6 => 151
   | 7 => 181 | 8 => 212 | 9 => 243 | 10 => 273 | 11 => 304 | 12 => 334
   | _ => 0)
  + (if leap && decide (3 ≤ m) then 1 else 0)

/-- Days since Jan 1 of year 1 (proleptic Gregorian ordinal, 0-based). -/
def toDays (y m d : Nat) : Nat :=
  365 * (y - 1) + leapsBefore (y - 1) + daysBeforeMonth (isLeap y) m + (d - 1)

/-- Seconds since the epoch of `toDays`; because both datetimes being
compared always carry the same fixed offset, this also orders the
corresponding aware instants. -/
def toSec (t : DT) : Nat :=
  toDays t.year t.month t.day * 86400 + t.hour * 3600 + t.minute * 60 + t.second

/-! ## The meeting-line grammar (`MEETING_REGEX` from `core/constants.py`)

Pattern (with `SEP` one of dot, hyphen, slash):
`^\s* (\d{1,2}) SEP (\d{1,2}) \s+ (\S+) \s+ (\d{1,2}[:.]\d{2}) \s+ (\S+) (?:\s+(.+?))? \s*$`
-/

/-- Capture groups of `MEETING_REGEX.match`. -/
structure Groups where
  dayStr : List Char
  monthStr : List Char
  mtype : List Char
  hhStr : List Char
  timeSep : Char
  mmStr : List Char
  room : List Char
  ticket : Option (List Char)
deriving DecidableEq, Repr

/-- The tail `(?:\s+(.+?))?\s*$` of the pattern, applied to the text
remaining after the room token (which is empty or starts with
whitespace).  Result: `none` when the whole regex match fails here,
`some none` for a match without a ticket capture, `some (some t)` for a
captured ticket.  Because `.` does not match a newline and `$` only ends
the string, the cases are: an empty remainder captures nothing; an
all-whitespace remainder always matches, lazily capturing the last
whitespace character at index ≥ 1 that is not a newline (none such, e.g.
a single space — no capture); otherwise the capture must cover every
non-whitespace character, so the match fails if a newline sits between
them, and captures the remainder stripped of surrounding whitespace. -/
def ticketGroup (rest : List Char) : Option (Option (List Char)) :=
  if rest.isEmpty then some none
  else if ¬ (rest.headD ' ').isWhitespace then none
  else
    let core := ((rest.dropWhile Char.isWhitespace).reverse.dropWhile
      Char.isWhitespace).reverse
    if core.isEmpty then
      match (rest.drop 1).reverse.find? (fun c => c ≠ '\n') with
      | some c => some (some [c])
      | none => some none
    else
      if '\n' ∈ core then none
      else some (some core)

/-- `MEETING_REGEX.match(text)`, embedded as a deterministic matcher: each
quantifier of the pattern is either bounded (`\d{1,2}` followed by a
non-digit, so it is the maximal digit run of length 1–2) or a maximal
token run (`\S+` followed by `\s+`), so the backtracking search of the
regex engine collapses to this straight-line scan. -/
def meetingRegexMatch (text : String) : Option Groups :=
  let cs := text.data.dropWhile Char.isWhitespace
  let (d1, cs) := cs.span Char.isDigit
  if d1.length < 1 || 2 < d1.length then none else
  match cs with
  | [] => none
  | sep :: cs =>
    if !(sep == '.' || sep == '-' || sep == '/') then none else
    let (d2, cs) := cs.span Char.isDigit
    if d2.length < 1 || 2 < d2.length then none else
    let (sp1, cs) := cs.span Char.isWhitespace
    if sp1.isEmpty then none else
    let (typ, cs) := cs.span (fun c => !c.isWhitespace)
    if typ.isEmpty then none else
    let (sp2, cs) := cs.span Char.isWhitespace
    if sp2.isEmpty then none else
    let (hh, cs) := cs.span Char.isDigit
    if hh.length < 1 || 2 < hh.length then none else
    match cs with
    | [] => none
    | tsep :: cs =>
      if !(tsep == ':' || tsep == '.') then none else
      let (mm, cs) := cs.span Char.isDigit
      if mm.length != 2 then none else
      let (sp3, cs) := cs.span Char.isWhitespace
      if sp3.isEmpty then none else
      let (room, cs) := cs.span (fun c => !c.isWhitespace)
      if room.isEmpty then none else
      match ticketGroup cs with
      | none => none
      | some tk => some ⟨d1, d2, typ, hh, tsep, mm, room, tk⟩

/-- `int` on a digit string (the regex guarantees only ASCII digits reach
the conversions, so they cannot raise). -/
def natOfDigits (cs : List Char) : Nat :=
  cs.foldl (fun a c => a * 10 + (c.toNat - 48)) 0

/-- `f"{n:02d}"` for `n ≤ 99`. -/
def pad2 (n : Nat) : String :=
  if n < 10 then "0" ++ toString n else toString n

/-! ## The meeting parser, `core/parsing.py` variant

`parse_meeting_message(text, tz)`: the timezone enters only through
`now = datetime.now(tz)` and through `_localize`, which attaches the same
fixed offset to every candidate, so the embedding takes the wall-clock
`now` in that zone as the parameter and compares naive datetimes. -/

/-- Result dictionary of `parse_meeting_message` (both variants). -/
structure Parsed where
  dt_local : DT
  date_str : String
  time_str : String
  mtype : String
  room : String
  ticket : String
  canonical_full : String
  reminder_text : String
deriving DecidableEq, Repr

/-- `datetime(now.year, month, day, hour, minute)` as attempted first by
the year-inference logic of both parser variants. -/
def firstCandidate (g : Groups) (now : DT) : DT :=
  ⟨now.year, natOfDigits g.monthStr, natOfDigits g.dayStr,
   natOfDigits g.hhStr, natOfDigits g.mmStr, 0⟩

/-- `datetime(now.year + 1, month, day, hour, minute)`, the rollover
candidate. -/
def rolledCandidate (g : Groups) (now : DT) : DT :=
  ⟨now.year + 1, natOfDigits g.monthStr, natOfDigits g.dayStr,
   natOfDigits g.hhStr, natOfDigits g.mmStr, 0⟩

/-- The result dictionary built by the `core/parsing.py` parser once the
candidate datetime `c` is settled.  `canonical_full` is
`" ".join([date_str, type, time_str, room] + ([ticket] if ticket))` and
`reminder_text` is `REMINDER_TEMPLATE.format(...)` with
`ticket_placeholder = " " + ticket if ticket else ""`; the two renderings
produce the same string, written out separately below as in the source. -/
def mkParsedCore (g : Groups) (c : DT) : Parsed :=
  let date_str := pad2 (natOfDigits g.dayStr) ++ "." ++ pad2 (natOfDigits g.monthStr)
  let time_str := pad2 (natOfDigits g.hhStr) ++ ":" ++ pad2 (natOfDigits g.mmStr)
  let mtype := String.mk g.mtype
  let room := String.mk g.room
  let ticket := (String.mk (g.ticket.getD [])).trim
  ⟨c, date_str, time_str, mtype, room, ticket,
    date_str ++ " " ++ mtype ++ " " ++ time_str ++ " " ++ room ++
      (if ticket = "" then "" else " " ++ ticket),
    date_str ++ " " ++ mtype ++ " " ++ time_str ++ " " ++ room ++
      (if ticket = "" then "" else " " ++ ticket)⟩

/-- `parse_meeting_message` from `core/parsing.py`: match the grammar,
convert the numeric groups, build the candidate in the current year
(`None` if the `datetime` constructor would raise), roll over to the next
year when the candidate is not after `now` (`None` if that date is
invalid), then render the result texts. -/
def parse_meeting_message (text : String) (now : DT) : Option Parsed :=
  match meetingRegexMatch text with
  | none => none
  | some g =>
    let first : DT := firstCandidate g now
    if ¬ validDT first then none
    else
      let cand : Option DT :=
        if toSec first ≤ toSec now then
          let rolled : DT := rolledCandidate g now
          if ¬ validDT rolled then none else some rolled
        else some first
      match cand with
      | none => none
      | some c => some (mkParsedCore g c)

/-! ## The meeting parser, `bot/main.py` variant

`bot/main.py` defines its own `parse_meeting_message` (the one actually
called by `schedule_reminder_core`).  Differences from the core variant:
the time separator must be a colon (`time_str.split(":")` raises on a dot
and the surrounding `except` returns `None`), the rollover condition is
`(mth < now.month) or (mth == now.month and candidate <= now)`, type and
room are used verbatim, and a missing ticket group renders as the string
`"None"` in `canonical_full` and `reminder_text` (Python formats `None`
that way). -/
/-- The result dictionary built by the `bot/main.py` parser: type and
room verbatim, a missing ticket group formatted as the string `"None"`,
`canonical_full` with a space before the ticket and `reminder_text`
without one (the template glues `{room}{ticket}`). -/
def mkParsedMain (g : Groups) (c : DT) : Parsed :=
  let date_str := pad2 (natOfDigits g.dayStr) ++ "." ++ pad2 (natOfDigits g.monthStr)
  let time_str := pad2 (natOfDigits g.hhStr) ++ ":" ++ pad2 (natOfDigits g.mmStr)
  let mtype := String.mk g.mtype
  let room := String.mk g.room
  let ticketStr := match g.ticket with
    | none => "None"
    | some t => String.mk t
  ⟨c, date_str, time_str, mtype, room, ticketStr,
    date_str ++ " " ++ mtype ++ " " ++ time_str ++ " " ++ room ++
      " " ++ ticketStr,
    date_str ++ " " ++ mtype ++ " " ++ time_str ++ " " ++ room ++ ticketStr⟩

def parse_meeting_message_main (text : String) (now : DT) : Option Parsed :=
  match meetingRegexMatch text with
  | none => none
  | some g =>
    if g.timeSep ≠ ':' then none
    else
      let month := natOfDigits g.monthStr
      let first : DT := firstCandidate g now
      if ¬ validDT first then none
      else
        let cand : Option DT :=
          if month < now.month ∨ (month = now.month ∧ toSec first ≤ toSec now)
          then
            let rolled : DT := rolledCandidate g now
            if ¬ validDT rolled then none else some rolled
          else some first
        match cand with
        | none => none
        | some c => some (mkParsedMain g c)

/-! ## Job store, scheduler and dedup state -/


/-- `rrule` field values `RR_ONCE / RR_DAILY / RR_WEEKLY`. -/
inductive RRule | once | daily | weekly
deriving DecidableEq, Repr

/-- A persisted job record / scheduler-payload dictionary.  Fields are
`Option`-valued because the Python dicts are built with varying key sets
and read through `dict.get`; the UI-only keys `confirm_chat_id` and
`confirm_message_id` are omitted.  A missing `rrule` key reads as
`RR_ONCE` (`rec.get("rrule", RR_ONCE)`), modelled by `Option RRule` with
`none` defaulting at the use sites. -/
structure Rec where
  job_id : String := ""
  target_chat_id : Option Int := none
  topic_id : Option Int := none
  text : Option String := none
  source_chat_id : Option Int := none
  target_title : Option String := none
  author_id : Option Int := none
  author_username : Option String := none
  created_at_utc : Option Int := none
  signature : Option String := none
  run_at_utc : Option Int := none
  rrule : Option RRule := none
deriving DecidableEq, Repr

/-- A pending `job_queue.run_once` entry: the name passed, the `when`
delay in seconds, and the `data` payload. -/
structure Timer where
  name : String
  whenDelay : Int
  data : Rec
deriving DecidableEq, Repr

/-- A send attempt handed to the chat transport
(`safe_send_message` / the send queue): chat id, text, topic id, and the
delivery result (`ok := true` for queued sends, whose failures are
swallowed inside the queue worker). -/
structure SendMsg where
  chat_id : Int
  text : String
  topic_id : Option Int
  ok : Bool := true
deriving DecidableEq, Repr

/-- The mutable state the lifecycle operations act on: the SQLite
`reminders` table (as a list of records in rowid order), the live
`job_queue` timers, the `recent_signatures` dedup deque (oldest first),
and the trace of reminder sends to the chat transport. -/
structure SysState where
  store : List Rec
  timers : List Timer
  guard : List String
  sent : List SendMsg
deriving DecidableEq, Repr

/-- `add_job_record` (`INSERT OR REPLACE` on the primary key `job_id`;
a replaced row gets a fresh rowid, hence moves to the end), guarded by
`if not jid: return`. -/
def add_job_record (store : List Rec) (rec : Rec) : List Rec :=
  if rec.job_id = "" then store
  else store.filter (fun r => r.job_id ≠ rec.job_id) ++ [rec]

/-- `remove_job_record`. -/
def remove_job_record (store : List Rec) (jobId : String) : List Rec :=
  store.filter (fun r => r.job_id ≠ jobId)

/-- `get_job_record` (`SELECT ... WHERE job_id = ?`, the key is unique). -/
def get_job_record (store : List Rec) (jobId : String) : Option Rec :=
  store.find? (fun r => r.job_id = jobId)

/-- `find_job_by_text`: first row whose `$.text` equals the given text —
note: no chat-id condition in the query. -/
def find_job_by_text (store : List Rec) (txt : String) : Option Rec :=
  store.find? (fun r => r.text = some txt)

/-- `set_jobs_store`: delete every row, then insert each record with
`INSERT OR REPLACE`, i.e. later duplicates of a `job_id` win. -/
def set_jobs_store (items : List Rec) : List Rec :=
  items.foldl add_job_record []

/-- `upsert_job_record job_id updates` specialised to the single update
actually issued by the fire handler, `{"run_at_utc": ...}`. -/
def upsert_run_at (store : List Rec) (jobId : String) (t : Int) : List Rec :=
  match get_job_record store jobId with
  | some r => add_job_record store { r with run_at_utc := some t }
  | none => add_job_record store { job_id := jobId, run_at_utc := some t }

/-- `dedup_should_skip` over the `recent_signatures`
`deque(maxlen=30)`: membership leaves the deque unchanged and skips;
otherwise append, silently evicting the oldest entry when the deque
already holds 30 signatures. -/
def dedup_should_skip (sig : String) (guard : List String) :
    Bool × List String :=
  if sig ∈ guard then (true, guard)
  else (false, if guard.length < 30 then guard ++ [sig]
               else guard.drop 1 ++ [sig])

/-- `release_signature`: `deque.remove` deletes the first occurrence and
the `ValueError` for a missing signature is swallowed; a falsy signature
is ignored. -/
def release_signature (sig : Option String) (guard : List String) :
    List String :=
  match sig with
  | none => guard
  | some s => if s = "" then guard else guard.eraseP (fun x => x = s)

/-- `make_signature(chat_id, canonical_full, dt_local)` =
`f"{chat_id}|{canonical_full}|{int(dt_local.timestamp())}"`; the timestamp
of the aware local datetime is its instant, `toSec` minus the zone
offset. -/
def make_signature (chatId : Int) (canonical : String) (dtLocal : DT)
    (tzOff : Int) : String :=
  toString chatId ++ "|" ++ canonical ++ "|" ++ toString ((toSec dtLocal : Int) - tzOff)

/-- `_rrule_next_iso(current_iso, rrule)`: `None` on an empty or
unparseable time or on `RR_ONCE`, else one day / one week after the
stored previous run time. -/
def rrule_next_iso (currentIso : Option Int) (rrule : Option RRule) :
    Option Int :=
  match currentIso, rrule.getD .once with
  | none, _ => none
  | some _, .once => none
  | some t, .daily => some (t + 86400)
  | some t, .weekly => some (t + 604800)

/-- Python truthiness for the `if chat_id and text:` guard. -/
def truthyInt : Option Int → Bool
  | none => false
  | some v => v ≠ 0

/-- Python truthiness for strings. -/
def truthyStr : Option String → Bool
  | none => false
  | some s => s ≠ ""

/-- Payload dictionary rebuilt from a record when the fire handler
reschedules a recurring job (the explicit key list at the `run_once` call
in `send_reminder` — no `signature`, no `run_at_utc`). -/
def payload_from_rec (jobId : String) (r : Rec) : Rec :=
  { job_id := jobId
    target_chat_id := r.target_chat_id
    topic_id := r.topic_id
    text := r.text
    source_chat_id := r.source_chat_id
    target_title := r.target_title
    author_id := r.author_id
    author_username := r.author_username
    created_at_utc := r.created_at_utc }

/-- `send_reminder(context)` — the fire handler.  `jobName` is
`context.job.name`, `data` is `context.job.data`.  The send happens first,
from the payload alone; only afterwards is the record loaded to decide
recurrence bookkeeping (reschedule under the same name with the advanced
`run_at_utc`) or cleanup (release the signature and delete the record). -/
def send_reminder (jobName : String) (data : Rec) (now : Int)
    (st : SysState) : SysState :=
  let chatId := data.target_chat_id
  let txt := data.text
  -- `job_id = context.job.name if context.job else data.get("job_id")`;
  -- both call sites (the job queue and the send-now dummy context) set
  -- `context.job`, so the name is taken from it, then `if job_id:` guards.
  let jobId := jobName
  let st1 :=
    if truthyInt chatId && truthyStr txt then
      { st with sent := st.sent ++ [⟨chatId.getD 0, txt.getD "", data.topic_id, true⟩] }
    else st
  if jobId = "" then st1
  else
    match get_job_record st1.store jobId with
    | some rec =>
      match rrule_next_iso rec.run_at_utc rec.rrule with
      | some tNext =>
        let delay := tNext - now
        let delay := if delay < 0 then 1 else delay
        { st1 with
            timers := st1.timers ++ [⟨jobId, delay, payload_from_rec jobId rec⟩]
            store := upsert_run_at st1.store jobId tNext }
      | none =>
        { st1 with
            guard := release_signature rec.signature st1.guard
            store := remove_job_record st1.store jobId }
    | none =>
      { st1 with store := remove_job_record st1.store jobId }

/-! ## Restart recovery (`restore_jobs`) -/

/-- `CATCHUP_WINDOW_SECONDS = 5 * 60` from `core/constants.py`. -/
def CATCHUP_WINDOW_SECONDS : Int := 5 * 60

/-- The payload dictionary `restore_jobs` passes to `run_once` (only five
keys — no author, title or signature information). -/
def restore_payload (r : Rec) : Rec :=
  { job_id := r.job_id
    target_chat_id := r.target_chat_id
    topic_id := r.topic_id
    text := r.text
    source_chat_id := r.source_chat_id }

/-- One iteration of the `restore_jobs` loop: accumulate armed timers and
the `kept` list.  A record whose `run_at_utc` fails `fromisoformat` is
skipped entirely. -/
def restore_step (now : Int) (acc : List Timer × List Rec) (r : Rec) :
    List Timer × List Rec :=
  match r.run_at_utc with
  | none => acc
  | some t =>
    let delay := t - now
    if delay ≤ 0 then
      if -CATCHUP_WINDOW_SECONDS ≤ delay then
        (acc.1 ++ [⟨r.job_id, 1, restore_payload r⟩], acc.2)
      else acc
    else
      (acc.1 ++ [⟨r.job_id, delay, restore_payload r⟩], acc.2 ++ [r])

/-- `restore_jobs(app)`: walk every persisted record, re-arm future ones,
arm a 1-second catch-up timer for those due within the catch-up window,
drop the rest, and finally rewrite the store with only the `kept`
(future) records via `set_jobs_store`. -/
def restore_jobs (st : SysState) (now : Int) : SysState :=
  let result := st.store.foldl (restore_step now) ([], [])
  { st with
      timers := st.timers ++ result.1
      store := set_jobs_store result.2 }

/-- The timer (if any) that `restore_jobs` arms for one record: the
re-arm timer for a future job, the 1-second catch-up timer for an
in-window overdue job, nothing for a stale or unparseable one.  (Used to
state the loop's effect record by record.) -/
def restoreTimer (now : Int) (r : Rec) : Option Timer :=
  match r.run_at_utc with
  | none => none
  | some t =>
    let delay := t - now
    if delay ≤ 0 then
      if -CATCHUP_WINDOW_SECONDS ≤ delay then
        some ⟨r.job_id, 1, restore_payload r⟩
      else none
    else some ⟨r.job_id, delay, restore_payload r⟩

/-- Whether `restore_jobs` keeps a record in the rewritten store:
exactly the parseable records whose fire time is strictly in the
future. -/
def keepP (now : Int) (r : Rec) : Bool :=
  match r.run_at_utc with
  | none => false
  | some t => decide (0 < t - now)

/-! ## The manual shift operation (`CB_SHIFT` branch of
`_handle_callback_body`) -/

/-- The fallback payload built from the record when no live timer carries
one (note: it has no `job_id` and no `signature` key). -/
def shift_fallback_payload (rec : Rec) : Rec :=
  { job_id := ""
    target_chat_id := rec.target_chat_id
    topic_id := rec.topic_id
    text := rec.text
    source_chat_id := rec.source_chat_id
    target_title := rec.target_title
    author_id := rec.author_id
    author_username := rec.author_username
    created_at_utc := rec.created_at_utc }

/-- The `CB_SHIFT` callback body after authorization and argument
parsing: load the record (not found → no mutation), take the payload from
the live timer if any (else rebuild it from the record), remove the old
timer, generate a fresh job id, schedule a new timer `minutes*60` seconds
from now, delete the old record and insert a new one whose `run_at_utc`
is `now + minutes` (wall clock at the moment of the shift, not the old
fire time).  Returns the new job id and new run time on success. -/
def shift_job (jobId : String) (minutes : Int) (freshId : String)
    (now : Int) (st : SysState) : SysState × Option (String × Int) :=
  match get_job_record st.store jobId with
  | none => (st, none)
  | some rec =>
    let timerOpt := st.timers.find? (fun tm => tm.name = jobId)
    let payload := match timerOpt with
      | some tm => tm.data
      | none => shift_fallback_payload rec
    let rrule := rec.rrule.getD .once
    let timers1 := st.timers.eraseP (fun tm => tm.name = jobId)
    let newRunAt := now + minutes * 60
    let timers2 := timers1 ++ [⟨freshId, minutes * 60, { payload with job_id := freshId }⟩]
    let store1 := remove_job_record st.store jobId
    let store2 := add_job_record store1
      { payload with
          job_id := freshId
          run_at_utc := some newRunAt
          rrule := some rrule }
    ({ st with timers := timers2, store := store2 }, some (freshId, newRunAt))

/-! ## Creation (`schedule_reminder_core`) -/

/-- The user-visible outcome of `schedule_reminder_core`, one constructor
per exit path of the function. -/
inductive Outcome
  | formatError
  | duplicate
  | dedupSkipped
  | sentImmediately
  | scheduled (jobId : String) (runAtUtc : Int)
deriving DecidableEq, Repr

/-- `schedule_reminder_core(text_in, cfg_chat_id, ...)`.

Parameters beyond the state: `tzOff` is the fixed offset (seconds east of
UTC) of the chat's timezone, `leadOffMin` is `get_offset_for_chat`
(minutes, already normalized ≥ 0), `nowLocal` is the wall clock in that
zone (`datetime.now(tz)`; a single reading stands for the two `now()`
calls in the function body), `freshId` is the generated
`rem-{uuid4().hex}` job id, `targetTitle` the resolved chat title, and
`sendOk` the chat-transport result of the immediate send (only reached on
the `delay_seconds <= 0` path; success and failure differ only in the
user-facing reply, and `finally` releases the signature either way).

In this function `tgt_chat = cfg_chat_id` and `topic_id =
topic_override`.  The UI confirmation message and the
`confirm_chat_id`/`confirm_message_id` upsert after scheduling are not
modelled. -/
def schedule_reminder_core (textIn : String) (cfgChat : Int)
    (topicOverride : Option Int) (tzOff : Int) (leadOffMin : Int)
    (nowLocal : DT) (freshId : String) (targetTitle : Option String)
    (authorId : Int) (authorUsername : Option String) (sendOk : Bool)
    (st : SysState) : SysState × Outcome :=
  match parse_meeting_message_main textIn nowLocal with
  | none => (st, .formatError)
  | some p =>
    let nowSec : Int := toSec nowLocal
    let reminderLocalSec : Int := toSec p.dt_local - leadOffMin * 60
    let is_past := reminderLocalSec ≤ nowSec
    match find_job_by_text st.store p.reminder_text with
    | some _ => (st, .duplicate)
    | none =>
      let sig := make_signature cfgChat p.canonical_full p.dt_local tzOff
      let skipGuard :=
        if ¬ is_past then dedup_should_skip sig st.guard
        else (false, st.guard)
      if skipGuard.1 then ({ st with guard := skipGuard.2 }, .dedupSkipped)
      else
        let st := { st with guard := skipGuard.2 }
        let delaySeconds := reminderLocalSec - nowSec
        if delaySeconds ≤ 0 then
          let st := { st with
            sent := st.sent ++ [⟨cfgChat, p.reminder_text, topicOverride, sendOk⟩]
            guard := release_signature (some sig) st.guard }
          (st, .sentImmediately)
        else
          let runAtUtc :=
            if delaySeconds ≤ 2 then nowSec - tzOff + 5
            else reminderLocalSec - tzOff
          let delaySeconds := if delaySeconds ≤ 2 then 5 else delaySeconds
          let jobData : Rec :=
            { job_id := freshId
              target_chat_id := some cfgChat
              topic_id := topicOverride
              text := some p.reminder_text
              source_chat_id := some cfgChat
              target_title := targetTitle
              author_id := some authorId
              author_username := authorUsername
              created_at_utc := some (nowSec - tzOff)
              signature := some sig }
          let st := { st with
            timers := st.timers ++ [⟨freshId, delaySeconds, jobData⟩]
            store := add_job_record st.store
              { jobData with run_at_utc := some runAtUtc, rrule := some .once } }
          (st, .scheduled freshId runAtUtc)

/-! ## Calendar lemmas -/

theorem isLeap_iff (y : Nat) :
    isLeap y = true ↔ (y % 4 = 0 ∧ (y % 100 ≠ 0 ∨ y % 400 = 0)) := by
  unfold isLeap
  simp [Bool.and_eq_true, beq_iff_eq, Bool.or_eq_true, bne_iff_ne]

theorem leapsBefore_succ (y : Nat) (hy : 1 ≤ y) :
    leapsBefore y = leapsBefore (y - 1) + (if isLeap y then 1 else 0) := by
  have hval : (if isLeap y then 1 else 0) =
      (if y % 4 = 0 ∧ (y % 100 ≠ 0 ∨ y % 400 = 0) then 1 else 0) := by
    by_cases hp : y % 4 = 0 ∧ (y % 100 ≠ 0 ∨ y % 400 = 0)
    · rw [if_pos ((isLeap_iff y).mpr hp), if_pos hp]
    · rw [if_neg (fun hl => hp ((isLeap_iff y).mp hl)), if_neg hp]
  rw [hval]
  unfold leapsBefore
  split
  · next hp => rcases hp with ⟨h4, h | h⟩ <;> omega
  · next hp =>
    by_cases h4 : y % 4 = 0
    · by_cases h400 : y % 400 = 0
      · exact absurd ⟨h4, Or.inr h400⟩ hp
      · by_cases h100 : y % 100 = 0
        · omega
        · exact absurd ⟨h4, Or.inl h100⟩ hp
    · omega

theorem daysInMonth_le_31 (y m : Nat) : daysInMonth y m ≤ 31 := by
  unfold daysInMonth
  split <;> first | omega | (split <;> omega)

theorem daysBeforeMonth_one (leap : Bool) : daysBeforeMonth leap 1 = 0 := by
  cases leap <;> rfl

theorem daysBeforeMonth_le (leap : Bool) (m : Nat) (hm2 : m ≤ 12) :
    daysBeforeMonth leap m + 30 ≤ 364 + (if leap then 1 else 0) := by
  unfold daysBeforeMonth
  cases leap <;> simp <;> split <;> first | omega | (split <;> omega)

theorem toDays_lt_year_succ (y m d : Nat) (hy : 1 ≤ y) (_hm1 : 1 ≤ m)
    (hm2 : m ≤ 12) (hd1 : 1 ≤ d) (hd2 : d ≤ daysInMonth y m) :
    toDays y m d < toDays (y + 1) 1 1 := by
  have hstep := leapsBefore_succ y hy
  have hd31 : d ≤ 31 := le_trans hd2 (daysInMonth_le_31 y m)
  have hbound := daysBeforeMonth_le (isLeap y) m hm2
  have h1 : daysBeforeMonth (isLeap (y + 1)) 1 = 0 := daysBeforeMonth_one _
  unfold toDays
  rw [h1]
  simp only [Nat.add_sub_cancel]
  cases hL : isLeap y <;> rw [hL] at hstep hbound <;>
    simp only [if_true, if_false, Bool.false_eq_true, Bool.true_eq_false,
      ite_true, ite_false] at hstep hbound <;> omega

theorem toSec_lt_of_year_succ (a b : DT) (ha : validDT a) (hb : validDT b)
    (h : b.year = a.year + 1) : toSec a < toSec b := by
  obtain ⟨ha1, ha2, ha3, ha4, ha5, ha6, ha7, ha8, ha9⟩ := ha
  obtain ⟨hb1, hb2, hb3, hb4, hb5, hb6, hb7, hb8, hb9⟩ := hb
  have h1 : toDays a.year a.month a.day < toDays (a.year + 1) 1 1 :=
    toDays_lt_year_succ a.year a.month a.day ha1 ha3 ha4 ha5 ha6
  have h2 : toDays (a.year + 1) 1 1 ≤ toDays b.year b.month b.day := by
    rw [h]
    unfold toDays
    rw [daysBeforeMonth_one]
    omega
  unfold toSec
  omega

/-! ## Store lemmas -/

theorem remove_job_record_absent (store : List Rec) (jid : String)
    (h : get_job_record store jid = none) :
    remove_job_record store jid = store := by
  unfold get_job_record at h
  unfold remove_job_record
  refine List.filter_eq_self.mpr (fun r hr => ?_)
  have := List.find?_eq_none.mp h r hr
  simpa using this

theorem find?_filter_ne_eq_none (store : List Rec) (jid : String) :
    (store.filter (fun r => r.job_id ≠ jid)).find?
      (fun r => r.job_id = jid) = none := by
  refine List.find?_eq_none.mpr (fun r hr => ?_)
  have := (List.mem_filter.mp hr).2
  simpa using this

theorem get_job_record_add_same (store : List Rec) (rec : Rec)
    (hne : rec.job_id ≠ "") :
    get_job_record (add_job_record store rec) rec.job_id = some rec := by
  unfold add_job_record get_job_record
  rw [if_neg hne, List.find?_append, find?_filter_ne_eq_none]
  simp [List.find?]

theorem get_job_record_add_other (store : List Rec) (rec : Rec)
    (jid : String) (hne : jid ≠ rec.job_id) (h0 : rec.job_id ≠ "") :
    get_job_record (add_job_record store rec) jid =
      get_job_record (store.filter (fun r => r.job_id ≠ rec.job_id)) jid := by
  unfold add_job_record get_job_record
  rw [if_neg h0, List.find?_append]
  cases hfind : (store.filter (fun r => r.job_id ≠ rec.job_id)).find?
      (fun r => r.job_id = jid) with
  | some r => simp [hfind]
  | none =>
    simp only [hfind, Option.none_or]
    have : decide (rec.job_id = jid) = false := by
      simp only [decide_eq_false_iff_not]
      exact fun h => hne h.symm
    simp [List.find?, this]

/-- Shared fact: the fire handler invoked for a job id with no stored
record changes nothing but the send trace (the send happens from the
payload; the record delete is a no-op). -/
theorem send_reminder_missing_record (jobName : String) (data : Rec)
    (now : Int) (st : SysState)
    (h : get_job_record st.store jobName = none) :
    send_reminder jobName data now st =
      { st with sent := st.sent ++
          (if truthyInt data.target_chat_id && truthyStr data.text then
            [⟨data.target_chat_id.getD 0, data.text.getD "", data.topic_id, true⟩]
          else []) } := by
  unfold send_reminder
  simp only
  by_cases htr : truthyInt data.target_chat_id && truthyStr data.text
  · rw [if_pos htr, if_pos htr]
    by_cases hj : jobName = ""
    · rw [if_pos hj]
    · rw [if_neg hj]
      have h' : get_job_record
          ({ st with sent := st.sent ++
            [⟨data.target_chat_id.getD 0, data.text.getD "", data.topic_id, true⟩] } :
              SysState).store jobName = none := h
      rw [h']
      simp only
      rw [remove_job_record_absent _ _ h']
  · rw [if_neg htr, if_neg htr]
    by_cases hj : jobName = ""
    · rw [if_pos hj]
      cases st
      simp
    · rw [if_neg hj, h]
      simp only
      rw [remove_job_record_absent _ _ h]
      cases st
      simp

/-! ## Claim C7: parser year inference -/

/-- C7: for every input line that matches the grammar, the parser infers
the year by first trying the current year and, when the resulting instant
in the chat timezone is not after now, retrying with the next year
(returning `None` if the next-year date is invalid); consequently every
successfully parsed meeting carries a local datetime that is not before
`now` at construction time. -/
theorem claim_C7_parser_year_inference (text : String) (now : DT)
    (hnow : validDT now) :
    (∀ p, parse_meeting_message text now = some p →
      toSec now ≤ toSec p.dt_local ∧
      ∃ g, meetingRegexMatch text = some g ∧
        ((toSec now < toSec (firstCandidate g now) ∧
            p.dt_local = firstCandidate g now) ∨
         (toSec (firstCandidate g now) ≤ toSec now ∧
            validDT (rolledCandidate g now) ∧
            p.dt_local = rolledCandidate g now))) ∧
    (∀ g, meetingRegexMatch text = some g →
      toSec (firstCandidate g now) ≤ toSec now →
      ¬ validDT (rolledCandidate g now) →
      parse_meeting_message text now = none) := by
  constructor
  · intro p hp
    unfold parse_meeting_message at hp
    rcases hm : meetingRegexMatch text with _ | g
    · rw [hm] at hp; exact absurd hp (by simp)
    · rw [hm] at hp
      simp only at hp
      by_cases hv : validDT (firstCandidate g now)
      · rw [if_neg (not_not_intro hv)] at hp
        by_cases hle : toSec (firstCandidate g now) ≤ toSec now
        · rw [if_pos hle] at hp
          by_cases hvr : validDT (rolledCandidate g now)
          · rw [if_neg (not_not_intro hvr)] at hp
            simp only [Option.some.injEq] at hp
            subst hp
            have hlt : toSec now < toSec (rolledCandidate g now) :=
              toSec_lt_of_year_succ now (rolledCandidate g now) hnow hvr rfl
            exact ⟨le_of_lt hlt, g, rfl, Or.inr ⟨hle, hvr, rfl⟩⟩
          · rw [if_pos hvr] at hp
            exact absurd hp (by simp)
        · rw [if_neg hle] at hp
          simp only [Option.some.injEq] at hp
          subst hp
          exact ⟨le_of_lt (lt_of_not_le hle), g, rfl,
            Or.inl ⟨lt_of_not_le hle, rfl⟩⟩
      · rw [if_pos hv] at hp
        exact absurd hp (by simp)
  · intro g hg hle hvr
    unfold parse_meeting_message
    rw [hg]
    simp only
    by_cases hv : validDT (firstCandidate g now)
    · rw [if_neg (not_not_intro hv), if_pos hle, if_pos hvr]
    · rw [if_pos hv]

/-- Witness for C7 at the spec's own year-rollover example: "now" is
2024-05-01 12:00 and the meeting "01.05 X 10:00 ROOM" has already passed
today, so the parsed local time is not before now (it lands in 2025). -/
theorem claim_C7_witness :
    validDT ⟨2024, 5, 1, 12, 0, 0⟩ ∧
    (match parse_meeting_message "01.05 X 10:00 ROOM" ⟨2024, 5, 1, 12, 0, 0⟩ with
     | some p => toSec (⟨2024, 5, 1, 12, 0, 0⟩ : DT) ≤ toSec p.dt_local ∧
         p.dt_local.year = 2025
     | none => False) := by
  refine ⟨by decide, ?_⟩
  split
  · next p hp =>
    have h := ((claim_C7_parser_year_inference "01.05 X 10:00 ROOM"
      ⟨2024, 5, 1, 12, 0, 0⟩ (by decide)).1 p hp)
    refine ⟨h.1, ?_⟩
    rcases h.2 with ⟨g, hg, hcase⟩
    have hg' : g = ⟨"01".data, "05".data, "X".data, "10".data, ':',
        "00".data, "ROOM".data, none⟩ := by
      have : meetingRegexMatch "01.05 X 10:00 ROOM" =
          some ⟨"01".data, "05".data, "X".data, "10".data, ':',
            "00".data, "ROOM".data, none⟩ := by decide
      rw [this] at hg
      exact (Option.some.injEq _ _ ▸ hg).symm
    subst hg'
    rcases hcase with ⟨hlt, hdt⟩ | ⟨_, _, hdt⟩
    · exact absurd hlt (by decide)
    · rw [hdt]; rfl
  · next hp => exact absurd hp (by decide)

/-! ## Claim C8: parser totality -/

/-- C8: the parser is total — every input either matches the grammar and
yields a parsed meeting built on a constructible calendar date, or yields
`None`; in particular a non-matching string yields `None` and an invalid
day/month/hour/minute combination yields `None` (all exception points of
the Python body are caught and converted to `None`). -/
theorem claim_C8_parser_totality (text : String) (now : DT) :
    (meetingRegexMatch text = none → parse_meeting_message text now = none) ∧
    (∀ g, meetingRegexMatch text = some g →
      ¬ validDT (firstCandidate g now) →
      parse_meeting_message text now = none) ∧
    (parse_meeting_message text now = none ∨
      ∃ p, parse_meeting_message text now = some p ∧ validDT p.dt_local) := by
  refine ⟨?_, ?_, ?_⟩
  · intro hm
    unfold parse_meeting_message
    rw [hm]
  · intro g hg hv
    unfold parse_meeting_message
    rw [hg]
    simp only
    rw [if_pos hv]
  · rcases hm : meetingRegexMatch text with _ | g
    · left; unfold parse_meeting_message; rw [hm]
    · by_cases hv : validDT (firstCandidate g now)
      · by_cases hle : toSec (firstCandidate g now) ≤ toSec now
        · by_cases hvr : validDT (rolledCandidate g now)
          · right
            refine ⟨mkParsedCore g (rolledCandidate g now), ?_, hvr⟩
            unfold parse_meeting_message
            rw [hm]
            simp only
            rw [if_neg (not_not_intro hv), if_pos hle,
              if_neg (not_not_intro hvr)]
          · left
            unfold parse_meeting_message
            rw [hm]
            simp only
            rw [if_neg (not_not_intro hv), if_pos hle, if_pos hvr]
        · right
          refine ⟨mkParsedCore g (firstCandidate g now), ?_, hv⟩
          unfold parse_meeting_message
          rw [hm]
          simp only
          rw [if_neg (not_not_intro hv), if_neg hle]
      · left
        unfold parse_meeting_message
        rw [hm]
        simp only
        rw [if_pos hv]

/-- Witness for C8: a string that fails the grammar parses to `None`, and
a grammar-matching line with the impossible date 31.02 parses to `None`. -/
theorem claim_C8_witness :
    parse_meeting_message "completely unrelated input"
      ⟨2024, 1, 1, 0, 0, 0⟩ = none ∧
    parse_meeting_message "31.02 X 10:00 R" ⟨2024, 5, 1, 12, 0, 0⟩ = none := by
  constructor
  · exact (claim_C8_parser_totality "completely unrelated input"
      ⟨2024, 1, 1, 0, 0, 0⟩).1 (by decide)
  · exact (claim_C8_parser_totality "31.02 X 10:00 R"
      ⟨2024, 5, 1, 12, 0, 0⟩).2.1
      ⟨"31".data, "02".data, "X".data, "10".data, ':', "00".data,
        "R".data, none⟩ (by decide) (by decide)

/-! ## Claim C9: the dedup guard -/

/-- C9: `dedup_should_skip` over the capacity-30 FIFO
`recent_signatures`: a present signature returns `true` and leaves the
guard unchanged; an absent one is appended (evicting the oldest entry
when the deque is full) and returns `false`; the capacity bound 30 is
preserved. -/
theorem claim_C9_dedup_guard (sig : String) (guard : List String)
    (hcap : guard.length ≤ 30) :
    (sig ∈ guard → dedup_should_skip sig guard = (true, guard)) ∧
    (sig ∉ guard →
      (dedup_should_skip sig guard).1 = false ∧
      (dedup_should_skip sig guard).2 =
        (if guard.length < 30 then guard ++ [sig]
         else guard.drop 1 ++ [sig]) ∧
      sig ∈ (dedup_should_skip sig guard).2 ∧
      ((dedup_should_skip sig guard).2).length ≤ 30 ∧
      (guard.length = 30 →
        (dedup_should_skip sig guard).2 = guard.drop 1 ++ [sig])) := by
  constructor
  · intro hmem
    unfold dedup_should_skip
    rw [if_pos hmem]
  · intro hmem
    unfold dedup_should_skip
    rw [if_neg hmem]
    refine ⟨rfl, rfl, ?_, ?_, ?_⟩
    · by_cases hlen : guard.length < 30 <;>
        simp [hlen, List.mem_append]
    · by_cases hlen : guard.length < 30 <;>
        simp [hlen, List.length_append, List.length_drop] <;> omega
    · intro h30
      rw [if_neg (by omega)]

/-- Witness for C9: a present signature skips without mutation; an absent
one is inserted and does not skip. -/
theorem claim_C9_witness :
    dedup_should_skip "a" ["a", "b"] = (true, ["a", "b"]) ∧
    (dedup_should_skip "s" ["a", "b"]).1 = false ∧
    (dedup_should_skip "s" ["a", "b"]).2 = ["a", "b", "s"] := by
  have h1 := claim_C9_dedup_guard "a" ["a", "b"] (by decide)
  have h2 := claim_C9_dedup_guard "s" ["a", "b"] (by decide)
  refine ⟨h1.1 (by decide), (h2.2 (by decide)).1, ?_⟩
  rw [(h2.2 (by decide)).2.1]
  decide

/-! ## Claim C1: the fire handler and the cancel/fire race -/

/-- C1 as stated is false: the fire handler sends from the timer payload
before consulting the store, so a job whose record is already gone (e.g.
cancelled between timer expiry and handler execution) is still sent.
Concretely: with an empty store, firing a payload for job "j9" performs a
send. -/
theorem claim_C1_counterexample :
    get_job_record ([] : List Rec) "j9" = none ∧
    (send_reminder "j9"
      { job_id := "j9", target_chat_id := some 5, text := some "X" } 0
      ⟨[], [], [], []⟩).sent = [⟨5, "X", none, true⟩] := by
  constructor
  · rfl
  · rfl

/-- C1 amended: the fire handler sends based only on the payload's
`target_chat_id`/`text` truthiness, regardless of the store; the store
lookup happens after the send and only drives recurrence bookkeeping and
cleanup, so when the record is missing the handler changes nothing except
appending the send. -/
theorem claim_C1_amended (jobName : String) (data : Rec) (now : Int)
    (st : SysState)
    (h : get_job_record st.store jobName = none) :
    send_reminder jobName data now st =
      { st with sent := st.sent ++
          (if truthyInt data.target_chat_id && truthyStr data.text then
            [⟨data.target_chat_id.getD 0, data.text.getD "", data.topic_id, true⟩]
          else []) } :=
  send_reminder_missing_record jobName data now st h

/-- Witness for C1 amended: the concrete counterexample state, evaluated
through the amended description. -/
theorem claim_C1_amended_witness :
    send_reminder "j9"
      { job_id := "j9", target_chat_id := some 5, text := some "X" } 0
      ⟨[], [], [], []⟩ =
      ⟨[], [], [], [⟨5, "X", none, true⟩]⟩ := by
  have h := claim_C1_amended "j9"
    { job_id := "j9", target_chat_id := some 5, text := some "X" } 0
    ⟨[], [], [], []⟩ (by decide)
  rw [h]
  decide

/-! ## Claim C2: scope of the duplicate check -/

/-- C2 as stated is false: `find_job_by_text` queries by text alone, so
an active job with the identical rendered text in a *different* chat also
blocks creation.  Concretely: the only stored job targets chat 99, yet a
create aimed at chat 1 with the same rendered text returns Duplicate. -/
theorem claim_C2_counterexample :
    (schedule_reminder_core "08.08 МТС 20:40 2в" 1 none 0 30
      ⟨2024, 5, 1, 12, 0, 0⟩ "fresh" none 7 none true
      ⟨[{ job_id := "z", target_chat_id := some 99,
          text := some "08.08 МТС 20:40 2вNone" }], [], [], []⟩).2 =
      Outcome.duplicate ∧
    ∀ r ∈ [({ job_id := "z", target_chat_id := some 99, text := some "08.08 МТС 20:40 2вNone" } : Rec)], r.target_chat_id ≠ some 1 := by
  constructor
  · rfl
  · decide

/-- C2 amended: the duplicate check is global, not scoped to the target
chat — creation returns Duplicate with no side effects exactly when some
active job in *any* chat has the identical rendered reminder text. -/
theorem claim_C2_amended (textIn : String) (cfgChat : Int)
    (topicOverride : Option Int) (tzOff leadOffMin : Int) (nowLocal : DT)
    (freshId : String) (targetTitle : Option String) (authorId : Int)
    (authorUsername : Option String) (sendOk : Bool) (st : SysState)
    (p : Parsed)
    (hparse : parse_meeting_message_main textIn nowLocal = some p) :
    ((find_job_by_text st.store p.reminder_text).isSome →
      schedule_reminder_core textIn cfgChat topicOverride tzOff leadOffMin
        nowLocal freshId targetTitle authorId authorUsername sendOk st =
        (st, .duplicate)) ∧
    ((schedule_reminder_core textIn cfgChat topicOverride tzOff leadOffMin
        nowLocal freshId targetTitle authorId authorUsername sendOk st).2 =
          .duplicate →
      (find_job_by_text st.store p.reminder_text).isSome) := by
  constructor
  · intro hsome
    rcases Option.isSome_iff_exists.mp hsome with ⟨r, hr⟩
    unfold schedule_reminder_core
    rw [hparse]
    simp only
    rw [hr]
  · intro hdup
    unfold schedule_reminder_core at hdup
    rw [hparse] at hdup
    simp only at hdup
    cases hfind : find_job_by_text st.store p.reminder_text with
    | some r => simp [hfind]
    | none =>
      rw [hfind] at hdup
      simp only at hdup
      exfalso
      repeat' split at hdup
      all_goals exact absurd hdup (by simp)

/-- Witness for C2 amended: the counterexample store, seen through the
amended statement — the cross-chat duplicate is what triggers the
Duplicate outcome. -/
theorem claim_C2_amended_witness :
    schedule_reminder_core "08.08 МТС 20:40 2в" 1 none 0 30
      ⟨2024, 5, 1, 12, 0, 0⟩ "fresh" none 7 none true
      ⟨[{ job_id := "z", target_chat_id := some 99,
          text := some "08.08 МТС 20:40 2вNone" }], [], [], []⟩ =
      (⟨[{ job_id := "z", target_chat_id := some 99, text := some "08.08 МТС 20:40 2вNone" }], [], [], []⟩, Outcome.duplicate) := by
  refine (claim_C2_amended "08.08 МТС 20:40 2в" 1 none 0 30
    ⟨2024, 5, 1, 12, 0, 0⟩ "fresh" none 7 none true
    ⟨[{ job_id := "z", target_chat_id := some 99,
        text := some "08.08 МТС 20:40 2вNone" }], [], [], []⟩
    _ (by rfl)).1 (by rfl)

/-! ## Claim C3: the shift operation -/

/-- C3 as stated is false: the shift handler computes the new fire time
from the wall clock (`now + delta`), not from the stored `run_at_utc`,
and it allocates a fresh job id instead of rescheduling the same one.
Concretely: a job stored to fire at t=1000, shifted by +10 minutes at
now=5000, ends up at 5600 under a new id — not at 1600 under "j1". -/
theorem claim_C3_counterexample :
    (shift_job "j1" 10 "newid" 5000
      ⟨[{ job_id := "j1", target_chat_id := some 5, text := some "T",
          run_at_utc := some 1000 }], [], [], []⟩).2 =
        some ("newid", 5600) ∧
    get_job_record (shift_job "j1" 10 "newid" 5000
      ⟨[{ job_id := "j1", target_chat_id := some 5, text := some "T",
          run_at_utc := some 1000 }], [], [], []⟩).1.store "j1" = none ∧
    ∀ r ∈ (shift_job "j1" 10 "newid" 5000
      ⟨[{ job_id := "j1", target_chat_id := some 5, text := some "T",
          run_at_utc := some 1000 }], [], [], []⟩).1.store,
      r.run_at_utc ≠ some 1600 := by
  refine ⟨rfl, rfl, by decide⟩

/-- C3 amended: for an existing job, shift computes the new fire time as
wall-clock `now` plus the delta, removes the old record and its timer,
and persists and schedules a *new* job id with that time (recurrence
carried over); the old id no longer resolves. -/
theorem claim_C3_amended (jobId : String) (minutes : Int) (freshId : String)
    (now : Int) (st : SysState) (rec : Rec)
    (hrec : get_job_record st.store jobId = some rec)
    (hfresh : freshId ≠ "") (hne : freshId ≠ jobId) :
    (shift_job jobId minutes freshId now st).2 =
      some (freshId, now + minutes * 60) ∧
    get_job_record (shift_job jobId minutes freshId now st).1.store
      jobId = none ∧
    (∃ newRec, get_job_record (shift_job jobId minutes freshId now st).1.store
        freshId = some newRec ∧
      newRec.job_id = freshId ∧
      newRec.run_at_utc = some (now + minutes * 60) ∧
      newRec.rrule = some (rec.rrule.getD .once)) ∧
    (∃ payload : Rec, (shift_job jobId minutes freshId now st).1.timers =
      st.timers.eraseP (fun tm => tm.name = jobId) ++
        [⟨freshId, minutes * 60, { payload with job_id := freshId }⟩]) := by
  unfold shift_job
  rw [hrec]
  simp only
  refine ⟨trivial, ?_, ?_, ?_⟩
  · rw [get_job_record_add_other _ _ _ (fun h => hne h.symm) hfresh]
    refine List.find?_eq_none.mpr (fun r hr => ?_)
    have hr1 := (List.mem_filter.mp hr).1
    have := (List.mem_filter.mp hr1).2
    simpa using this
  · exact ⟨_, get_job_record_add_same _ _ hfresh, rfl, rfl, rfl⟩
  · exact ⟨_, rfl⟩

/-- Witness for C3 amended, applied at the counterexample input. -/
theorem claim_C3_amended_witness :
    (shift_job "j1" 10 "newid" 5000
      ⟨[{ job_id := "j1", target_chat_id := some 5, text := some "T",
          run_at_utc := some 1000 }], [], [], []⟩).2 =
      some ("newid", 5000 + 10 * 60) := by
  exact (claim_C3_amended "j1" 10 "newid" 5000
    ⟨[{ job_id := "j1", target_chat_id := some 5, text := some "T",
        run_at_utc := some 1000 }], [], [], []⟩
    { job_id := "j1", target_chat_id := some 5, text := some "T",
        run_at_utc := some 1000 } (by rfl) (by decide) (by decide)).1

/-! ## Claim C5: the immediate-send path of creation -/

/-- C5: when creation resolves a fire time not after now
(`delay_seconds <= 0`), the reminder is sent immediately, the guard
signature is released, and the outcome is SentImmediately, with no job
persisted and no timer armed — for either transport result `sendOk`. -/
theorem claim_C5_immediate_send (textIn : String) (cfgChat : Int)
    (topicOverride : Option Int) (tzOff leadOffMin : Int) (nowLocal : DT)
    (freshId : String) (targetTitle : Option String) (authorId : Int)
    (authorUsername : Option String) (sendOk : Bool) (st : SysState)
    (p : Parsed)
    (hparse : parse_meeting_message_main textIn nowLocal = some p)
    (hnodup : find_job_by_text st.store p.reminder_text = none)
    (hpast : (toSec p.dt_local : Int) - leadOffMin * 60 ≤ (toSec nowLocal : Int)) :
    schedule_reminder_core textIn cfgChat topicOverride tzOff leadOffMin
        nowLocal freshId targetTitle authorId authorUsername sendOk st =
      ({ st with
          sent := st.sent ++ [⟨cfgChat, p.reminder_text, topicOverride, sendOk⟩]
          guard := release_signature
            (some (make_signature cfgChat p.canonical_full p.dt_local tzOff))
            st.guard }, .sentImmediately) := by
  unfold schedule_reminder_core
  rw [hparse]
  simp only
  rw [hnodup]
  simp only
  rw [if_neg (not_not_intro hpast)]
  simp only [Bool.false_eq_true, if_false]
  rw [if_pos (by omega : (toSec p.dt_local : Int) - leadOffMin * 60 -
    (toSec nowLocal : Int) ≤ 0)]

/-- Witness for C5: a meeting 10 minutes ahead with a 30-minute lead
offset resolves to a fire time already in the past and is sent at once,
with the store and timers untouched. -/
theorem claim_C5_witness :
    schedule_reminder_core "01.05 X 12:10 R" 5 none 10800 30
        ⟨2024, 5, 1, 12, 0, 0⟩ "fresh" none 7 none true ⟨[], [], [], []⟩ =
      (⟨[], [], [],
        [⟨5, "01.05 X 12:10 RNone", none, true⟩]⟩, .sentImmediately) := by
  have h := claim_C5_immediate_send "01.05 X 12:10 R" 5 none 10800 30
    ⟨2024, 5, 1, 12, 0, 0⟩ "fresh" none 7 none true ⟨[], [], [], []⟩
    (mkParsedMain ⟨"01".data, "05".data, "X".data, "12".data, ':',
      "10".data, "R".data, none⟩ ⟨2024, 5, 1, 12, 10, 0⟩)
    (by rfl) (by rfl) (by decide)
  rw [h]
  rfl

/-! ## Claim C6: drift-free recurrence advance -/

/-- C6: when the fire handler processes a Daily or Weekly job, the next
fire time is the stored `run_at_utc` plus exactly one day or one week —
independent of the actual firing moment `now` — the update is persisted
on the same record, and a new timer is armed under the same job id. -/
theorem claim_C6_recurrence_drift_free (jobName : String) (data : Rec)
    (now : Int) (st : SysState) (rec : Rec) (t : Int) (step : Int)
    (hname : jobName ≠ "")
    (hrec : get_job_record st.store jobName = some rec)
    (hrun : rec.run_at_utc = some t)
    (hstep : (rec.rrule = some .daily ∧ step = 86400) ∨
             (rec.rrule = some .weekly ∧ step = 604800)) :
    get_job_record (send_reminder jobName data now st).store jobName =
      some { rec with run_at_utc := some (t + step) } ∧
    (send_reminder jobName data now st).timers =
      st.timers ++ [⟨jobName, (if t + step - now < 0 then 1 else t + step - now),
        payload_from_rec jobName rec⟩] ∧
    (send_reminder jobName data now st).guard = st.guard := by
  have hid : rec.job_id = jobName := by
    have := List.find?_some hrec
    simpa using this
  have hnext : rrule_next_iso rec.run_at_utc rec.rrule = some (t + step) := by
    rcases hstep with ⟨hrr, hs⟩ | ⟨hrr, hs⟩ <;>
      rw [hrr, hrun, hs] <;> rfl
  unfold send_reminder
  simp only
  by_cases htr : truthyInt data.target_chat_id && truthyStr data.text
  · rw [if_pos htr, if_neg hname, hrec]
    simp only
    rw [hnext]
    simp only
    unfold upsert_run_at
    rw [hrec]
    simp only
    refine ⟨?_, trivial, trivial⟩
    rw [← hid]
    exact get_job_record_add_same st.store _ (by rw [hid]; exact hname)
  · rw [if_neg htr, if_neg hname, hrec]
    simp only
    rw [hnext]
    simp only
    unfold upsert_run_at
    rw [hrec]
    simp only
    refine ⟨?_, trivial, trivial⟩
    rw [← hid]
    exact get_job_record_add_same st.store _ (by rw [hid]; exact hname)

/-- Witness for C6: a daily job stored to run at t=1000 that actually
fires at now=1007 is advanced to exactly 1000 + 86400 = 87400, not
1007 + 86400, and is rescheduled under the same id. -/
theorem claim_C6_witness :
    get_job_record (send_reminder "j1"
      { job_id := "j1", target_chat_id := some 5, text := some "T" } 1007
      ⟨[{ job_id := "j1", target_chat_id := some 5, text := some "T",
          run_at_utc := some 1000, rrule := some .daily }], [], [], []⟩).store
      "j1" =
      some { job_id := "j1", target_chat_id := some 5, text := some "T", run_at_utc := some 87400, rrule := some .daily } := by
  have h := (claim_C6_recurrence_drift_free "j1"
    { job_id := "j1", target_chat_id := some 5, text := some "T" } 1007
    ⟨[{ job_id := "j1", target_chat_id := some 5, text := some "T",
        run_at_utc := some 1000, rrule := some .daily }], [], [], []⟩
    { job_id := "j1", target_chat_id := some 5, text := some "T",
        run_at_utc := some 1000, rrule := some .daily }
    1000 86400 (by decide) (by rfl) (by rfl) (Or.inl ⟨rfl, rfl⟩)).1
  rw [h]
  rfl

/-! ## Restore lemmas -/

theorem restore_fold_spec (now : Int) (items : List Rec)
    (acc : List Timer × List Rec) :
    items.foldl (restore_step now) acc =
      (acc.1 ++ items.filterMap (restoreTimer now),
       acc.2 ++ items.filter (keepP now)) := by
  induction items generalizing acc with
  | nil => simp
  | cons r rest ih =>
    simp only [List.foldl_cons, List.filterMap_cons, List.filter_cons]
    rw [ih]
    rcases hr : r.run_at_utc with _ | t
    · have htimer : restoreTimer now r = none := by
        unfold restoreTimer; rw [hr]
      have hkeep : keepP now r = false := by
        unfold keepP; rw [hr]
      have hstep : restore_step now acc r = acc := by
        unfold restore_step; rw [hr]
      rw [htimer, hkeep, hstep]
      simp
    · by_cases h1 : t - now ≤ 0
      · by_cases h2 : -CATCHUP_WINDOW_SECONDS ≤ t - now
        · have htimer : restoreTimer now r =
              some ⟨r.job_id, 1, restore_payload r⟩ := by
            unfold restoreTimer; rw [hr]
            simp only
            rw [if_pos h1, if_pos h2]
          have hkeep : keepP now r = false := by
            unfold keepP; rw [hr]
            simp only
            simp only [decide_eq_false_iff_not]
            omega
          have hstep : restore_step now acc r =
              (acc.1 ++ [⟨r.job_id, 1, restore_payload r⟩], acc.2) := by
            unfold restore_step; rw [hr]
            simp only
            rw [if_pos h1, if_pos h2]
          rw [htimer, hkeep, hstep]
          simp
        · have htimer : restoreTimer now r = none := by
            unfold restoreTimer; rw [hr]
            simp only
            rw [if_pos h1, if_neg h2]
          have hkeep : keepP now r = false := by
            unfold keepP; rw [hr]
            simp only
            simp only [decide_eq_false_iff_not]
            omega
          have hstep : restore_step now acc r = acc := by
            unfold restore_step; rw [hr]
            simp only
            rw [if_pos h1, if_neg h2]
          rw [htimer, hkeep, hstep]
          simp
      · have htimer : restoreTimer now r =
            some ⟨r.job_id, t - now, restore_payload r⟩ := by
          unfold restoreTimer; rw [hr]
          simp only
          rw [if_neg h1]
        have hkeep : keepP now r = true := by
          unfold keepP; rw [hr]
          simp only
          simp only [decide_eq_true_eq]
          omega
        have hstep : restore_step now acc r =
            (acc.1 ++ [⟨r.job_id, t - now, restore_payload r⟩],
             acc.2 ++ [r]) := by
          unfold restore_step; rw [hr]
          simp only
          rw [if_neg h1]
        rw [htimer, hkeep, hstep]
        simp

theorem restore_jobs_spec (st : SysState) (now : Int) :
    restore_jobs st now =
      { st with
          timers := st.timers ++ st.store.filterMap (restoreTimer now)
          store := set_jobs_store (st.store.filter (keepP now)) } := by
  unfold restore_jobs
  rw [restore_fold_spec]
  rfl

theorem add_job_record_all_new (acc : List Rec) (r : Rec)
    (hne : r.job_id ≠ "") (hdisj : ∀ a ∈ acc, a.job_id ≠ r.job_id) :
    add_job_record acc r = acc ++ [r] := by
  unfold add_job_record
  rw [if_neg hne, List.filter_eq_self.mpr]
  intro a ha
  simpa using hdisj a ha

theorem foldl_add_all_new (items : List Rec) (acc : List Rec)
    (hne : ∀ r ∈ items, r.job_id ≠ "")
    (hdisj : ∀ r ∈ items, ∀ a ∈ acc, a.job_id ≠ r.job_id)
    (hids : (items.map Rec.job_id).Nodup) :
    items.foldl add_job_record acc = acc ++ items := by
  induction items generalizing acc with
  | nil => simp
  | cons r rest ih =>
    rw [List.map_cons] at hids
    obtain ⟨hnotin, hrest⟩ := List.nodup_cons.mp hids
    simp only [List.foldl_cons]
    rw [add_job_record_all_new acc r (hne r (List.mem_cons_self r rest))
      (hdisj r (List.mem_cons_self r rest))]
    have hdisj2 : ∀ x ∈ rest, ∀ a ∈ acc ++ [r], a.job_id ≠ x.job_id := by
      intro x hx a ha
      rcases List.mem_append.mp ha with ha' | ha'
      · exact hdisj x (List.mem_cons_of_mem r hx) a ha'
      · have heq : a = r := by simpa using ha'
        subst heq
        intro hcontra
        exact hnotin (by
          rw [hcontra]
          exact List.mem_map_of_mem Rec.job_id hx)
    rw [ih (acc ++ [r]) (fun x hx => hne x (List.mem_cons_of_mem r hx))
      hdisj2 hrest]
    simp

theorem set_jobs_store_id (items : List Rec)
    (hids : (items.map Rec.job_id).Nodup)
    (hne : ∀ r ∈ items, r.job_id ≠ "") :
    set_jobs_store items = items := by
  unfold set_jobs_store
  rw [foldl_add_all_new items [] hne (fun r _ a ha => absurd ha
    (List.not_mem_nil a)) hids]
  simp

theorem keepP_nodup_filter (store : List Rec) (now : Int)
    (hids : (store.map Rec.job_id).Nodup) :
    ((store.filter (keepP now)).map Rec.job_id).Nodup :=
  hids.sublist (List.Sublist.map Rec.job_id (List.filter_sublist store))

theorem get_job_record_filter_none (store : List Rec) (now : Int)
    (r : Rec) (hmem : r ∈ store)
    (hids : (store.map Rec.job_id).Nodup)
    (hnotkeep : keepP now r = false) :
    get_job_record (store.filter (keepP now)) r.job_id = none := by
  unfold get_job_record
  refine List.find?_eq_none.mpr (fun s hs => ?_)
  have hsmem := (List.mem_filter.mp hs).1
  have hskeep := (List.mem_filter.mp hs).2
  simp only [decide_eq_true_eq]
  intro hid
  have : s = r := List.inj_on_of_nodup_map hids hsmem hmem hid
  subst this
  rw [hnotkeep] at hskeep
  exact absurd hskeep (by simp)

theorem restoreTimer_name (now : Int) (x : Rec) (tm : Timer)
    (h : restoreTimer now x = some tm) : tm.name = x.job_id := by
  unfold restoreTimer at h
  rcases hx : x.run_at_utc with _ | t <;> rw [hx] at h
  · exact absurd h (by simp)
  · simp only at h
    by_cases h1 : t - now ≤ 0
    · rw [if_pos h1] at h
      by_cases h2 : -CATCHUP_WINDOW_SECONDS ≤ t - now
      · rw [if_pos h2] at h
        cases h
        rfl
      · rw [if_neg h2] at h
        exact absurd h (by simp)
    · rw [if_neg h1] at h
      cases h
      rfl

theorem restore_store_eq (st : SysState) (now : Int)
    (hids : (st.store.map Rec.job_id).Nodup)
    (hne : ∀ r ∈ st.store, r.job_id ≠ "") :
    (restore_jobs st now).store = st.store.filter (keepP now) := by
  rw [restore_jobs_spec]
  simp only
  exact set_jobs_store_id _ (keepP_nodup_filter st.store now hids)
    (fun r hr => hne r (List.mem_filter.mp hr).1)

/-! ## Claim C10: the store after restart recovery -/

/-- C10: after `restore_jobs`, the persisted store holds exactly the
recovered records whose fire time is strictly in the future; both
caught-up and stale records are removed by the rewrite, so a caught-up
job's record is already gone when its 1-second catch-up timer runs. -/
theorem claim_C10_restore_store (st : SysState) (now : Int)
    (hids : (st.store.map Rec.job_id).Nodup)
    (hne : ∀ r ∈ st.store, r.job_id ≠ "") :
    (restore_jobs st now).store = st.store.filter (keepP now) ∧
    (∀ r ∈ st.store, ∀ t, r.run_at_utc = some t → t ≤ now →
      get_job_record (restore_jobs st now).store r.job_id = none) := by
  have hstore := restore_store_eq st now hids hne
  refine ⟨hstore, fun r hmem t hrun hle => ?_⟩
  rw [hstore]
  refine get_job_record_filter_none st.store now r hmem hids ?_
  unfold keepP
  rw [hrun]
  simp only [decide_eq_false_iff_not]
  omega

/-- Witness for C10: a store holding one future and one overdue job is
rewritten to just the future one, and the overdue job's id no longer
resolves. -/
theorem claim_C10_witness :
    (restore_jobs ⟨[{ job_id := "a", run_at_utc := some 2000 }, { job_id := "b", run_at_utc := some 880 }], [], [], []⟩ 1000).store = [{ job_id := "a", run_at_utc := some 2000 }] ∧
    get_job_record (restore_jobs ⟨[{ job_id := "a", run_at_utc := some 2000 }, { job_id := "b", run_at_utc := some 880 }], [], [], []⟩ 1000).store "b" = none := by
  have h := claim_C10_restore_store
    ⟨[{ job_id := "a", run_at_utc := some 2000 }, { job_id := "b", run_at_utc := some 880 }], [], [], []⟩ 1000
    (by decide) (by decide)
  constructor
  · rw [h.1]; rfl
  · exact h.2 { job_id := "b", run_at_utc := some 880 } (by decide) 880
      (by rfl) (by decide)

/-! ## Claim C4: restart recovery partition -/

/-- C4 as stated is false on its recurrence clause: a Daily job inside
the catch-up window is fired through `send_reminder`, but because
`restore_jobs` already rewrote the store without its record, the handler
finds nothing and performs no recurrence advance.  Concretely: one daily
job due 2 minutes ago is caught up (timer armed, send happens) yet the
store stays empty and no rescheduled timer appears. -/
theorem claim_C4_counterexample :
    (restore_jobs ⟨[{ job_id := "b", target_chat_id := some 1, text := some "B", run_at_utc := some 880, rrule := some .daily }], [], [], []⟩ 1000).store = [] ∧
    (restore_jobs ⟨[{ job_id := "b", target_chat_id := some 1, text := some "B", run_at_utc := some 880, rrule := some .daily }], [], [], []⟩ 1000).timers = [⟨"b", 1, restore_payload { job_id := "b", target_chat_id := some 1, text := some "B", run_at_utc := some 880, rrule := some .daily }⟩] ∧
    (send_reminder "b" (restore_payload { job_id := "b", target_chat_id := some 1, text := some "B", run_at_utc := some 880, rrule := some .daily }) 1001 (restore_jobs ⟨[{ job_id := "b", target_chat_id := some 1, text := some "B", run_at_utc := some 880, rrule := some .daily }], [], [], []⟩ 1000)).sent = [⟨1, "B", none, true⟩] ∧
    (send_reminder "b" (restore_payload { job_id := "b", target_chat_id := some 1, text := some "B", run_at_utc := some 880, rrule := some .daily }) 1001 (restore_jobs ⟨[{ job_id := "b", target_chat_id := some 1, text := some "B", run_at_utc := some 880, rrule := some .daily }], [], [], []⟩ 1000)).store = [] ∧
    (send_reminder "b" (restore_payload { job_id := "b", target_chat_id := some 1, text := some "B", run_at_utc := some 880, rrule := some .daily }) 1001 (restore_jobs ⟨[{ job_id := "b", target_chat_id := some 1, text := some "B", run_at_utc := some 880, rrule := some .daily }], [], [], []⟩ 1000)).timers = (restore_jobs ⟨[{ job_id := "b", target_chat_id := some 1, text := some "B", run_at_utc := some 880, rrule := some .daily }], [], [], []⟩ 1000).timers := by
  refine ⟨rfl, rfl, rfl, rfl, rfl⟩

/-- C4 amended: `restore_jobs` partitions every parseable record by
`delay = run_at_utc - now`: a future job is re-armed with that delay and
kept; an in-window overdue job gets a 1-second catch-up timer through the
same `send_reminder` path but its record is removed by the store rewrite,
so the catch-up fire sends and then changes nothing (no recurrence
advance); a stale job is dropped silently with no timer and no send. -/
theorem claim_C4_amended (st : SysState) (now : Int) (r : Rec) (t : Int)
    (hmem : r ∈ st.store)
    (hids : (st.store.map Rec.job_id).Nodup)
    (hne : ∀ x ∈ st.store, x.job_id ≠ "")
    (hrun : r.run_at_utc = some t) :
    (0 < t - now →
      ⟨r.job_id, t - now, restore_payload r⟩ ∈ (restore_jobs st now).timers ∧
      r ∈ (restore_jobs st now).store) ∧
    (-CATCHUP_WINDOW_SECONDS ≤ t - now → t - now ≤ 0 →
      ⟨r.job_id, 1, restore_payload r⟩ ∈ (restore_jobs st now).timers ∧
      get_job_record (restore_jobs st now).store r.job_id = none ∧
      (∀ now2,
        (send_reminder r.job_id (restore_payload r) now2
            (restore_jobs st now)).store = (restore_jobs st now).store ∧
        (send_reminder r.job_id (restore_payload r) now2
            (restore_jobs st now)).timers = (restore_jobs st now).timers ∧
        (send_reminder r.job_id (restore_payload r) now2
            (restore_jobs st now)).sent = (restore_jobs st now).sent ++
          (if truthyInt r.target_chat_id && truthyStr r.text then
            [⟨r.target_chat_id.getD 0, r.text.getD "", r.topic_id, true⟩]
          else []))) ∧
    (t - now < -CATCHUP_WINDOW_SECONDS →
      (∀ tm ∈ (restore_jobs st now).timers, tm.name = r.job_id →
        tm ∈ st.timers) ∧
      get_job_record (restore_jobs st now).store r.job_id = none) ∧
    (restore_jobs st now).sent = st.sent := by
  have hstore := restore_store_eq st now hids hne
  refine ⟨?_, ?_, ?_, ?_⟩
  · intro hfut
    constructor
    · rw [restore_jobs_spec]
      simp only
      refine List.mem_append_right _ (List.mem_filterMap.mpr ⟨r, hmem, ?_⟩)
      unfold restoreTimer
      rw [hrun]
      simp only
      rw [if_neg (by omega)]
    · rw [hstore]
      refine List.mem_filter.mpr ⟨hmem, ?_⟩
      unfold keepP
      rw [hrun]
      simp only [decide_eq_true_eq]
      omega
  · intro h2 h1
    have hget : get_job_record (restore_jobs st now).store r.job_id = none := by
      rw [hstore]
      refine get_job_record_filter_none st.store now r hmem hids ?_
      unfold keepP
      rw [hrun]
      simp only
      simp only [decide_eq_false_iff_not]
      omega
    refine ⟨?_, hget, fun now2 => ?_⟩
    · rw [restore_jobs_spec]
      simp only
      refine List.mem_append_right _ (List.mem_filterMap.mpr ⟨r, hmem, ?_⟩)
      unfold restoreTimer
      rw [hrun]
      simp only
      rw [if_pos h1, if_pos h2]
    · have heq := send_reminder_missing_record r.job_id (restore_payload r)
        now2 (restore_jobs st now) hget
      refine ⟨by rw [heq], by rw [heq], by rw [heq]; rfl⟩
  · intro hstale
    have hstale' : t - now < -(300 : Int) := by
      rw [show CATCHUP_WINDOW_SECONDS = (300 : Int) from rfl] at hstale
      exact hstale
    constructor
    · rw [restore_jobs_spec]
      intro tm htm hnm
      simp only at htm
      rcases List.mem_append.mp htm with htm' | htm'
      · exact htm'
      · exfalso
        rcases List.mem_filterMap.mp htm' with ⟨x, hx, hxt⟩
        have hxid : x.job_id = r.job_id := by
          rw [← restoreTimer_name now x tm hxt, hnm]
        have hxr : x = r := List.inj_on_of_nodup_map hids hx hmem hxid
        subst hxr
        unfold restoreTimer at hxt
        rw [hrun] at hxt
        simp only at hxt
        rw [if_pos (by omega : t - now ≤ 0),
          if_neg (by
            rw [show CATCHUP_WINDOW_SECONDS = (300 : Int) from rfl]
            omega : ¬ -CATCHUP_WINDOW_SECONDS ≤ t - now)] at hxt
        exact absurd hxt (by simp)
    · rw [hstore]
      refine get_job_record_filter_none st.store now r hmem hids ?_
      unfold keepP
      rw [hrun]
      simp only
      simp only [decide_eq_false_iff_not]
      omega
  · rw [restore_jobs_spec]

/-- Witness for C4 amended: a one-record store whose job is overdue by
2 minutes (inside the 5-minute window) gets its catch-up timer and loses
its record; the subsequent catch-up fire only appends the send. -/
theorem claim_C4_amended_witness :
    (⟨"c", 1, restore_payload { job_id := "c", target_chat_id := some 2, text := some "C", run_at_utc := some 880, rrule := some .daily }⟩ : Timer) ∈
      (restore_jobs ⟨[{ job_id := "c", target_chat_id := some 2, text := some "C", run_at_utc := some 880, rrule := some .daily }], [], [], []⟩ 1000).timers ∧
    get_job_record (restore_jobs ⟨[{ job_id := "c", target_chat_id := some 2, text := some "C", run_at_utc := some 880, rrule := some .daily }], [], [], []⟩ 1000).store "c" = none := by
  have h := (claim_C4_amended
    ⟨[{ job_id := "c", target_chat_id := some 2, text := some "C", run_at_utc := some 880, rrule := some .daily }], [], [], []⟩ 1000
    { job_id := "c", target_chat_id := some 2, text := some "C", run_at_utc := some 880, rrule := some .daily } 880
    (by decide) (by decide) (by decide) (by rfl)).2.1 (by decide) (by decide)
  exact ⟨h.1, h.2.1⟩

end Slonyara
